import Mathlib

/-!
Verification of the training/extraction orchestration core of the
AITraining repository, as a shallow embedding in Lean.

The definitions mirror the Python source:
  * `app/models.py`        — status enums and entity records,
  * `app/config.py`        — the default configuration constants,
  * `app/tasks/training.py`  — `train_frames_task`, `process_single_frame`,
                               `process_frame_batch`, `rollback_training_task`,
  * `app/tasks/extraction.py` — the batch loop of `extract_frames_task`,
  * `app/api/frames.py`    — `update_frame_selection`,
  * `app/api/training.py`  — `resume_training` and the rollback status gate.

External effects (S3 download, embedding generation, Qdrant upsert) are
abstracted by boolean oracles: `oracle frameId attempt` tells whether the
per-frame step sequence succeeds on a given attempt.  Operator pauses are
an oracle over batch indices, and database state is explicit
(`List Frame`, `Job`, embedding-replica id list).
-/

/-- Frame statuses, from `FrameStatus` in `app/models.py`. -/
inductive FrameStatus
  | extracted
  | selected
  | training
  | trained
  | deleted
deriving DecidableEq, Repr

/-- Training-job statuses, from `JobStatus` in `app/models.py`. -/
inductive JobStatus
  | pending
  | processing
  | completed
  | failed
  | paused
  | rolled_back
deriving DecidableEq, Repr

/-- Video statuses, from `VideoStatus` in `app/models.py`. -/
inductive VideoStatus
  | uploading
  | uploaded
  | extracting
  | extracted
  | failed
deriving DecidableEq, Repr

/-- An `extracted_frames` row (`ExtractedFrame` in `app/models.py`),
restricted to the columns the orchestration logic touches. -/
structure Frame where
  id : Nat
  videoId : Nat
  frameNumber : Nat
  status : FrameStatus
  qdrantPointId : Option Nat
  trainingJobId : Option Nat
  trainingAttempts : Nat
  lastError : Option String
  deletedAt : Option Nat
deriving DecidableEq, Repr

/-- A `training_jobs` row (`TrainingJob` in `app/models.py`). -/
structure Job where
  id : Nat
  videoId : Nat
  status : JobStatus
  totalFrames : Nat
  processedFrames : Nat
  failedFrames : Nat
  errorMessage : Option String
  startedAt : Option Nat
  completedAt : Option Nat
  rolledBackAt : Option Nat
deriving DecidableEq, Repr

/-- A `video_batches` row (`VideoBatch` in `app/models.py`), restricted to
the columns the extraction pipeline touches. -/
structure Video where
  id : Nat
  status : VideoStatus
  totalFrames : Nat
  errorMessage : Option String
deriving DecidableEq, Repr

/-! Configuration defaults, from `Settings` in `app/config.py`. -/

def TRAINING_BATCH_SIZE : Nat := 50

def TRAINING_RETRY_ATTEMPTS : Nat := 3

def TRAINING_RETRY_BACKOFF : List Nat := [1, 5, 15]

def CIRCUIT_BREAKER_THRESHOLD : Nat := 10

def FRAME_EXTRACTION_BATCH_SIZE : Nat := 100

/-! ### Per-frame processing (`process_single_frame` in `app/tasks/training.py`)

`oracle attempt` abstracts the five fallible steps of one attempt
(download, embed, validate dimension, Qdrant upsert, persist replica):
it is `true` iff the whole step sequence succeeds on that attempt. -/

/-- Result of `process_single_frame`: the frame row as finally committed,
the returned point id (`none` on failure), the `time.sleep` durations
performed between attempts, and how many times the step sequence ran. -/
structure FrameAttemptResult where
  frame : Frame
  pointId : Option Nat
  sleeps : List Nat
  attemptsMade : Nat
deriving DecidableEq, Repr

/-- The `last_error` text written on retry exhaustion
(`f"Failed after {retry_attempts} attempts"`). -/
def exhaustionMsg : String :=
  "Failed after " ++ toString TRAINING_RETRY_ATTEMPTS ++ " attempts"

/-- The retry loop of `process_single_frame` (`for attempt in
range(retry_attempts)`).  `remaining` counts attempts still allowed, so the
call starts at `attempt = 0`, `remaining = TRAINING_RETRY_ATTEMPTS`.
On success the frame is marked `trained` with the new point id, its attempt
counter incremented and its error cleared; between failed attempts the task
sleeps `retry_backoff[attempt]` (defaulting to 15); when all attempts are
exhausted the frame is reverted to `selected` with `last_error` recorded and
`training_attempts` incremented by the attempt count. -/
def attemptLoop (oracle : Nat → Bool) (pid : Nat) (f : Frame) :
    Nat → Nat → FrameAttemptResult
  | _, 0 =>
    { frame := { f with
        status := FrameStatus.selected
        lastError := some exhaustionMsg
        trainingAttempts := f.trainingAttempts + TRAINING_RETRY_ATTEMPTS }
      pointId := none
      sleeps := []
      attemptsMade := 0 }
  | attempt, remaining + 1 =>
    if oracle attempt then
      { frame := { f with
          status := FrameStatus.trained
          qdrantPointId := some pid
          trainingAttempts := f.trainingAttempts + 1
          lastError := none }
        pointId := some pid
        sleeps := []
        attemptsMade := 1 }
    else
      let r := attemptLoop oracle pid f (attempt + 1) remaining
      { r with
        sleeps :=
          if remaining ≠ 0 then TRAINING_RETRY_BACKOFF.getD attempt 15 :: r.sleeps
          else r.sleeps
        attemptsMade := r.attemptsMade + 1 }

/-- `process_single_frame`: on the first attempt the frame is marked
`training` and linked to the job (committed separately in the source), then
the retry loop runs. -/
def processSingleFrame (oracle : Nat → Bool) (pid : Nat) (jobId : Nat)
    (f : Frame) : FrameAttemptResult :=
  attemptLoop oracle pid
    { f with status := FrameStatus.training, trainingJobId := some jobId }
    0 TRAINING_RETRY_ATTEMPTS

/-! ### The batch loop of `train_frames_task` (`app/tasks/training.py`)

`oracle frameId attempt` abstracts the fallible external steps per frame and
attempt; `pid frameId` abstracts `qdrant_service.generate_point_id`;
`pause batchIdx` is true when an operator committed `PAUSED` on the job row
before the loop re-read it at the start of that batch. -/

/-- Outcome of one frame inside `process_frame_batch`. -/
def frameResult (oracle : Nat → Nat → Bool) (pid : Nat → Nat) (jobId : Nat)
    (f : Frame) : FrameAttemptResult :=
  processSingleFrame (oracle f.id) (pid f.id) jobId f

/-- Whether `process_single_frame` returned a result (counted as success in
`process_frame_batch`). -/
def frameSucceeds (oracle : Nat → Nat → Bool) (pid : Nat → Nat) (jobId : Nat)
    (f : Frame) : Bool :=
  (frameResult oracle pid jobId f).pointId.isSome

/-- The `success_count` / `failed_count` accumulation of
`process_frame_batch` over one batch. -/
def batchCounts (succ : Frame → Bool) : List Frame → Nat × Nat
  | [] => (0, 0)
  | f :: rest =>
    let r := batchCounts succ rest
    if succ f then (r.1 + 1, r.2) else (r.1, r.2 + 1)

/-- The database after a batch: every frame whose id is in the batch is
replaced by its `process_single_frame` outcome; all other rows are
untouched. -/
def applyBatch (oracle : Nat → Nat → Bool) (pid : Nat → Nat) (jobId : Nat)
    (db : List Frame) (batch : List Frame) : List Frame :=
  let ids := batch.map Frame.id
  db.map fun f =>
    if ids.contains f.id then (frameResult oracle pid jobId f).frame else f

/-- `range(0, total, batch_size)` slicing: split a list into chunks of `n`
(`n > 0` in all uses; fuel is the list length, which suffices). -/
def chunkListAux (n : Nat) : Nat → List α → List (List α)
  | _, [] => []
  | 0, _ :: _ => []
  | fuel + 1, x :: xs =>
    ((x :: xs).take n) :: chunkListAux n fuel ((x :: xs).drop n)

def chunkList (n : Nat) (l : List α) : List (List α) :=
  chunkListAux n l.length l

/-- The circuit-breaker `error_message`
(`f"Circuit breaker triggered after {n} consecutive failures"`). -/
def circuitBreakerMsg (n : Nat) : String :=
  "Circuit breaker triggered after " ++ toString n ++ " consecutive failures"

/-- The `error_message` of the all-frames-failed terminal branch. -/
def allFailedMsg (n : Nat) : String :=
  "All " ++ toString n ++
    " frames failed to process. Check individual frame errors for details."

/-- The `error_message` of the some-frames-failed terminal branch
(`f"{job.failed_frames} out of {job.total_frames} frames failed"`). -/
def failedOutOfMsg (failed total : Nat) : String :=
  toString failed ++ " out of " ++ toString total ++ " frames failed"

/-- Terminal resolution of `train_frames_task` (lines 286-330): reached only
when every batch was processed without the loop returning early. -/
def finalizeJob (t : Nat) (j : Job) : Job :=
  if j.processedFrames = 0 ∧ 0 < j.failedFrames then
    { j with
      status := JobStatus.failed
      errorMessage := some (allFailedMsg j.failedFrames)
      completedAt := some t }
  else if 0 < j.processedFrames ∧ 0 < j.failedFrames then
    { j with
      status := JobStatus.completed
      errorMessage := some (failedOutOfMsg j.failedFrames j.totalFrames)
      completedAt := some t }
  else
    { j with
      status := JobStatus.completed
      errorMessage := none
      completedAt := some t }

/-- Result of a `train_frames_task` run: the job row, the frame table, and
the ids of all frames that were dispatched to the worker pool. -/
structure RunResult where
  job : Job
  frames : List Frame
  attempted : List Nat
deriving DecidableEq, Repr

/-- The `for batch_start in range(0, total_frames, batch_size)` loop of
`train_frames_task`.  Per batch: re-read the job and stop if an operator
paused it; dispatch every frame of the batch to the pool; add the batch's
success/failure counts to the job counters; update the consecutive-failure
count (reset on a batch with zero failures); pause with the circuit-breaker
message when it reaches the threshold; otherwise continue.  After the last
batch, terminal resolution runs. -/
def runBatches (oracle : Nat → Nat → Bool) (pid : Nat → Nat)
    (pause : Nat → Bool) (t : Nat) :
    List (List Frame) → Nat → Job → List Frame → Nat → List Nat → RunResult
  | [], _, job, db, _, att => ⟨finalizeJob t job, db, att⟩
  | b :: rest, i, job, db, consec, att =>
    if pause i then ⟨{ job with status := JobStatus.paused }, db, att⟩
    else
      let counts := batchCounts (frameSucceeds oracle pid job.id) b
      let db' := applyBatch oracle pid job.id db b
      let job' := { job with
        processedFrames := job.processedFrames + counts.1
        failedFrames := job.failedFrames + counts.2 }
      let att' := att ++ b.map Frame.id
      let consec' := if 0 < counts.2 then consec + counts.2 else 0
      if CIRCUIT_BREAKER_THRESHOLD ≤ consec' then
        ⟨{ job' with
            status := JobStatus.paused
            errorMessage := some (circuitBreakerMsg consec') }, db', att'⟩
      else
        runBatches oracle pid pause t rest (i + 1) job' db' consec' att'

/-- The frame query of the entry contract: frames of the job's video with
status `selected` and no soft-delete timestamp. -/
def selectedFramesFor (videoId : Nat) (db : List Frame) : List Frame :=
  db.filter fun f =>
    f.videoId == videoId && f.status == FrameStatus.selected &&
      f.deletedAt == none

/-- `train_frames_task`: if the query finds no frames, complete the job
immediately (only `status` and `completed_at` are written); if another job
for the video is already `processing` (`otherProcessing`), pause; otherwise
record the total, mark the job `processing`, and run the batch loop. -/
def runTrainTask (oracle : Nat → Nat → Bool) (pid : Nat → Nat)
    (pause : Nat → Bool) (otherProcessing : Bool) (t : Nat)
    (job : Job) (db : List Frame) : RunResult :=
  let sel := selectedFramesFor job.videoId db
  if sel = [] then
    ⟨{ job with status := JobStatus.completed, completedAt := some t }, db, []⟩
  else if otherProcessing then
    ⟨{ job with
        status := JobStatus.paused
        errorMessage := some "Another job is already processing" }, db, []⟩
  else
    runBatches oracle pid pause t (chunkList TRAINING_BATCH_SIZE sel) 0
      { job with
        totalFrames := sel.length
        status := JobStatus.processing
        startedAt := some t }
      db 0 []

/-- `resume_training` in `app/api/training.py`: only a `paused` job may be
resumed; it is reset to `pending` with its error cleared and the task is
re-dispatched. -/
def resumeJob (j : Job) : Option Job :=
  if j.status = JobStatus.paused then
    some { j with status := JobStatus.pending, errorMessage := none }
  else none

/-! ### Rollback (`rollback_training_task` in `app/tasks/training.py`) -/

/-- Database state seen by the rollback task: the job row, the frame table,
and the frame ids that own a `frame_embeddings` replica row. -/
structure RollbackState where
  job : Job
  frames : List Frame
  embeddings : List Nat
deriving DecidableEq, Repr

/-- Result of a rollback run; `deletionsAttempted` counts the Qdrant point
ids handed to `qdrant_service.delete_batch`. -/
structure RollbackResult where
  state : RollbackState
  deletionsAttempted : Nat
deriving DecidableEq, Repr

/-- The preferred frame query of the rollback task: frames linked to this
job via `training_job_id`, in status `trained` or `training`, holding a
Qdrant point id. -/
def rollbackPrimaryFrames (jobId : Nat) (db : List Frame) : List Frame :=
  db.filter fun f =>
    f.trainingJobId == some jobId &&
      (f.status == FrameStatus.trained || f.status == FrameStatus.training) &&
      f.qdrantPointId.isSome

/-- The fallback query used when no frame carries the job link: all
non-soft-deleted `trained` frames of the same video holding a point id. -/
def rollbackFallbackFrames (videoId : Nat) (db : List Frame) : List Frame :=
  db.filter fun f =>
    f.videoId == videoId && f.status == FrameStatus.trained &&
      f.qdrantPointId.isSome && f.deletedAt == none

/-- `rollback_training_task`: rejected unless the job is `completed` or
`failed` (so a `rolled_back` job returns with nothing touched).  With zero
matching frames the job is still marked `rolled_back`.  Otherwise the
matching frames' point ids are all handed to the Qdrant batch delete, their
embedding replicas are deleted, the frames are reverted to `selected` with
point id and job link cleared, and the job becomes `rolled_back` with a
timestamp. -/
def rollbackTrainingTask (t : Nat) (st : RollbackState) : RollbackResult :=
  if st.job.status ≠ JobStatus.completed ∧ st.job.status ≠ JobStatus.failed then
    ⟨st, 0⟩
  else
    let primary := rollbackPrimaryFrames st.job.id st.frames
    let target :=
      if primary = [] then rollbackFallbackFrames st.job.videoId st.frames
      else primary
    if target = [] then
      ⟨{ st with job := { st.job with
          status := JobStatus.rolled_back
          rolledBackAt := some t } }, 0⟩
    else
      let targetIds := target.map Frame.id
      let pointIds := target.filterMap Frame.qdrantPointId
      ⟨{ job := { st.job with
            status := JobStatus.rolled_back
            rolledBackAt := some t }
         frames := st.frames.map fun f =>
           if targetIds.contains f.id then
             { f with
               status := FrameStatus.selected
               qdrantPointId := none
               trainingJobId := none }
           else f
         embeddings := st.embeddings.filter fun fid => !targetIds.contains fid },
       pointIds.length⟩

/-- The rollback endpoint's status gate (`rollback_training` in
`app/api/training.py`): a `rolled_back` job gets its own rejection before
the generic completed-or-failed check. -/
inductive RollbackApiDecision
  | accepted
  | alreadyRolledBack
  | invalidStatus
deriving DecidableEq, Repr

def rollbackApiCheck (j : Job) : RollbackApiDecision :=
  if j.status = JobStatus.rolled_back then RollbackApiDecision.alreadyRolledBack
  else if j.status ≠ JobStatus.completed ∧ j.status ≠ JobStatus.failed then
    RollbackApiDecision.invalidStatus
  else RollbackApiDecision.accepted

/-! ### Frame selection (`update_frame_selection` in `app/api/frames.py`) -/

inductive SelAction
  | select
  | deselect
deriving DecidableEq, Repr

inductive SelectionError
  | notFound
  | multipleVideos
  | invalidStatus (ids : List Nat)
deriving DecidableEq, Repr

inductive SelectionResponse
  | ok (updated : Nat)
  | rejected (e : SelectionError)
deriving DecidableEq, Repr

/-- Endpoint outcome: the frame table after the request (unchanged whenever
the request is rejected, since every rejection raises before any write is
committed) and the HTTP-level response. -/
structure SelectionResult where
  db : List Frame
  response : SelectionResponse
deriving DecidableEq, Repr

/-- The statuses refused by the `select` action's guard. -/
def blockedStatus (f : Frame) : Bool :=
  f.status == FrameStatus.trained || f.status == FrameStatus.deleted ||
    f.status == FrameStatus.training

/-- `update_frame_selection`: look up the requested rows; 404 unless every
id was found; reject mixed videos; for `select` only, reject if any found
frame is `trained`, `deleted` or `training`, listing exactly the offending
ids; otherwise write the target status (`selected` for select, `extracted`
for deselect) to every requested row whose status differs, counting the
rows changed. -/
def updateFrameSelection (action : SelAction) (frameIds : List Nat)
    (db : List Frame) : SelectionResult :=
  let found := db.filter fun f => frameIds.contains f.id
  if found.length ≠ frameIds.length then
    ⟨db, SelectionResponse.rejected SelectionError.notFound⟩
  else if 1 < (found.map Frame.videoId).dedup.length then
    ⟨db, SelectionResponse.rejected SelectionError.multipleVideos⟩
  else if action = SelAction.select ∧ found.filter blockedStatus ≠ [] then
    ⟨db, SelectionResponse.rejected
      (SelectionError.invalidStatus ((found.filter blockedStatus).map Frame.id))⟩
  else
    let newStatus :=
      if action = SelAction.select then FrameStatus.selected
      else FrameStatus.extracted
    ⟨db.map fun f =>
        if frameIds.contains f.id then
          if f.status ≠ newStatus then { f with status := newStatus } else f
        else f,
      SelectionResponse.ok
        ((found.filter fun f => f.status ≠ newStatus).length)⟩

/-! ### Extraction batch loop (`extract_frames_task` in
`app/tasks/extraction.py`)

Frames are identified by their position in the decoded sequence.  `failAt`
abstracts the outermost `except` handler: `some (k, msg)` means an
exception with text `msg` escapes while frame `k` is being handled, which
aborts the run before the batch containing `k` commits. -/

structure ExtractionResult where
  video : Video
  committedFrames : List Nat
deriving DecidableEq, Repr

/-- The per-batch loop: each batch commits its frame rows and updates
`video.total_frames` to the running count; an exception aborts the whole
run, leaving earlier committed batches in place and marking the video
`failed` with the exception text; after the last batch the video becomes
`extracted`. -/
def runExtractionBatches (failAt : Option (Nat × String)) :
    List (List Nat) → Video → List Nat → ExtractionResult
  | [], v, committed =>
    ⟨{ v with
        status := VideoStatus.extracted
        totalFrames := committed.length }, committed⟩
  | b :: rest, v, committed =>
    match failAt with
    | some (k, msg) =>
      if b.contains k then
        ⟨{ v with status := VideoStatus.failed, errorMessage := some msg },
          committed⟩
      else
        runExtractionBatches failAt rest
          { v with totalFrames := (committed ++ b).length } (committed ++ b)
    | none =>
      runExtractionBatches failAt rest
        { v with totalFrames := (committed ++ b).length } (committed ++ b)

/-- The batch phase of `extract_frames_task` over `n` decoded frames. -/
def runExtraction (v : Video) (n : Nat) (failAt : Option (Nat × String)) :
    ExtractionResult :=
  runExtractionBatches failAt
    (chunkList FRAME_EXTRACTION_BATCH_SIZE (List.range n)) v []

/-! ### Helper lemmas -/

theorem contains_iff_mem {l : List Nat} {a : Nat} :
    l.contains a = true ↔ a ∈ l := by
  simp [List.contains]

theorem chunkListAux_flatten {α : Type} (n : Nat) (hn : 0 < n) :
    ∀ (fuel : Nat) (l : List α), l.length ≤ fuel →
      (chunkListAux n fuel l).flatten = l := by
  intro fuel
  induction fuel with
  | zero =>
    intro l hl
    cases l with
    | nil => simp [chunkListAux]
    | cons x xs => simp at hl
  | succ fuel ih =>
    intro l hl
    cases l with
    | nil => simp [chunkListAux]
    | cons x xs =>
      have hdrop : ((x :: xs).drop n).length ≤ fuel := by
        rw [List.length_drop, List.length_cons]
        rw [List.length_cons] at hl
        omega
      simp only [chunkListAux, List.flatten_cons, ih _ hdrop,
        List.take_append_drop]

theorem chunkList_flatten {α : Type} (n : Nat) (hn : 0 < n) (l : List α) :
    (chunkList n l).flatten = l :=
  chunkListAux_flatten n hn l.length l (Nat.le_refl _)

theorem batchCounts_sum (succ : Frame → Bool) (l : List Frame) :
    (batchCounts succ l).1 + (batchCounts succ l).2 = l.length := by
  induction l with
  | nil => simp [batchCounts]
  | cons f rest ih =>
    simp only [batchCounts, List.length_cons]
    split <;> omega

theorem finalizeJob_totalFrames (t : Nat) (j : Job) :
    (finalizeJob t j).totalFrames = j.totalFrames := by
  unfold finalizeJob
  split
  · rfl
  split
  · rfl
  · rfl

theorem finalizeJob_processedFrames (t : Nat) (j : Job) :
    (finalizeJob t j).processedFrames = j.processedFrames := by
  unfold finalizeJob
  split
  · rfl
  split
  · rfl
  · rfl

theorem finalizeJob_failedFrames (t : Nat) (j : Job) :
    (finalizeJob t j).failedFrames = j.failedFrames := by
  unfold finalizeJob
  split
  · rfl
  split
  · rfl
  · rfl

theorem finalizeJob_completedAt (t : Nat) (j : Job) :
    (finalizeJob t j).completedAt = some t := by
  unfold finalizeJob
  split
  · rfl
  split
  · rfl
  · rfl

theorem finalizeJob_status_ne_paused (t : Nat) (j : Job) :
    (finalizeJob t j).status ≠ JobStatus.paused := by
  unfold finalizeJob
  split
  · simp
  split
  · simp
  · simp

theorem finalizeJob_cases (t : Nat) (j : Job) :
    (j.processedFrames = 0 ∧ 0 < j.failedFrames →
      (finalizeJob t j).status = JobStatus.failed ∧
      (finalizeJob t j).errorMessage = some (allFailedMsg j.failedFrames)) ∧
    (0 < j.processedFrames ∧ 0 < j.failedFrames →
      (finalizeJob t j).status = JobStatus.completed ∧
      (finalizeJob t j).errorMessage =
        some (failedOutOfMsg j.failedFrames j.totalFrames)) ∧
    (j.failedFrames = 0 →
      (finalizeJob t j).status = JobStatus.completed ∧
      (finalizeJob t j).errorMessage = none) := by
  by_cases h1 : j.processedFrames = 0 ∧ 0 < j.failedFrames
  · unfold finalizeJob
    rw [if_pos h1]
    exact ⟨fun _ => ⟨rfl, rfl⟩, fun hc => by omega, fun hc => by omega⟩
  · by_cases h2 : 0 < j.processedFrames ∧ 0 < j.failedFrames
    · unfold finalizeJob
      rw [if_neg h1, if_pos h2]
      exact ⟨fun hc => by omega, fun _ => ⟨rfl, rfl⟩, fun hc => by omega⟩
    · unfold finalizeJob
      rw [if_neg h1, if_neg h2]
      exact ⟨fun hc => absurd hc h1, fun hc => absurd hc h2,
        fun _ => ⟨rfl, rfl⟩⟩

theorem runBatches_totalFrames (oracle : Nat → Nat → Bool) (pid : Nat → Nat)
    (pause : Nat → Bool) (t : Nat) :
    ∀ (batches : List (List Frame)) (i : Nat) (job : Job) (db : List Frame)
      (consec : Nat) (att : List Nat),
      (runBatches oracle pid pause t batches i job db consec att).job.totalFrames
        = job.totalFrames
  | [], _, job, _, _, _ => finalizeJob_totalFrames t job
  | b :: rest, i, job, db, consec, att => by
    rw [runBatches]
    by_cases hp : pause i
    · rw [if_pos hp]
    · rw [if_neg hp]
      dsimp only
      split <;> split
      · rfl
      · exact runBatches_totalFrames oracle pid pause t rest _ _ _ _ _
      · rfl
      · exact runBatches_totalFrames oracle pid pause t rest _ _ _ _ _

theorem runBatches_counters_le (oracle : Nat → Nat → Bool) (pid : Nat → Nat)
    (pause : Nat → Bool) (t : Nat) :
    ∀ (batches : List (List Frame)) (i : Nat) (job : Job) (db : List Frame)
      (consec : Nat) (att : List Nat),
      (runBatches oracle pid pause t batches i job db consec att).job.processedFrames
        + (runBatches oracle pid pause t batches i job db consec att).job.failedFrames
        ≤ job.processedFrames + job.failedFrames + batches.flatten.length
  | [], _, job, _, _, _ => by
    rw [runBatches]
    dsimp only
    rw [finalizeJob_processedFrames, finalizeJob_failedFrames]
    simp
  | b :: rest, i, job, db, consec, att => by
    rw [runBatches]
    by_cases hp : pause i
    · rw [if_pos hp]
      simp only [List.flatten_cons, List.length_append]
      omega
    · rw [if_neg hp]
      dsimp only
      have hsum := batchCounts_sum (frameSucceeds oracle pid job.id) b
      split <;> split
      · simp only [List.flatten_cons, List.length_append]
        omega
      · refine le_trans
          (runBatches_counters_le oracle pid pause t rest _ _ _ _ _) ?_
        simp only [List.flatten_cons, List.length_append]
        omega
      · simp only [List.flatten_cons, List.length_append]
        omega
      · refine le_trans
          (runBatches_counters_le oracle pid pause t rest _ _ _ _ _) ?_
        simp only [List.flatten_cons, List.length_append]
        omega

theorem runBatches_counters_eq (oracle : Nat → Nat → Bool) (pid : Nat → Nat)
    (pause : Nat → Bool) (t : Nat) :
    ∀ (batches : List (List Frame)) (i : Nat) (job : Job) (db : List Frame)
      (consec : Nat) (att : List Nat),
      (runBatches oracle pid pause t batches i job db consec att).job.status
        ≠ JobStatus.paused →
      (runBatches oracle pid pause t batches i job db consec att).job.processedFrames
        + (runBatches oracle pid pause t batches i job db consec att).job.failedFrames
        = job.processedFrames + job.failedFrames + batches.flatten.length
  | [], _, job, _, _, _ => by
    intro _
    rw [runBatches]
    dsimp only
    rw [finalizeJob_processedFrames, finalizeJob_failedFrames]
    simp
  | b :: rest, i, job, db, consec, att => by
    rw [runBatches]
    by_cases hp : pause i
    · rw [if_pos hp]
      intro hcon
      exact absurd rfl hcon
    · rw [if_neg hp]
      dsimp only
      have hsum := batchCounts_sum (frameSucceeds oracle pid job.id) b
      split <;> split
      · intro hcon
        exact absurd rfl hcon
      · intro hcon
        have ih := runBatches_counters_eq oracle pid pause t rest _ _ _ _ _ hcon
        dsimp only at ih
        simp only [List.flatten_cons, List.length_append]
        omega
      · intro hcon
        exact absurd rfl hcon
      · intro hcon
        have ih := runBatches_counters_eq oracle pid pause t rest _ _ _ _ _ hcon
        dsimp only at ih
        simp only [List.flatten_cons, List.length_append]
        omega

theorem runBatches_final (oracle : Nat → Nat → Bool) (pid : Nat → Nat)
    (pause : Nat → Bool) (t : Nat) :
    ∀ (batches : List (List Frame)) (i : Nat) (job : Job) (db : List Frame)
      (consec : Nat) (att : List Nat),
      (runBatches oracle pid pause t batches i job db consec att).job.status
          = JobStatus.paused ∨
      ∃ j : Job,
        (runBatches oracle pid pause t batches i job db consec att).job
          = finalizeJob t j
  | [], _, job, _, _, _ => Or.inr ⟨job, rfl⟩
  | b :: rest, i, job, db, consec, att => by
    rw [runBatches]
    by_cases hp : pause i
    · rw [if_pos hp]
      exact Or.inl rfl
    · rw [if_neg hp]
      dsimp only
      split <;> split
      · exact Or.inl rfl
      · exact runBatches_final oracle pid pause t rest _ _ _ _ _
      · exact Or.inl rfl
      · exact runBatches_final oracle pid pause t rest _ _ _ _ _

theorem filterMap_length_of_isSome {α β : Type} (g : α → Option β) :
    ∀ l : List α, (∀ a ∈ l, (g a).isSome) →
      (l.filterMap g).length = l.length := by
  intro l
  induction l with
  | nil => simp
  | cons a rest ih =>
    intro h
    have ha := h a (List.mem_cons_self a rest)
    obtain ⟨b, hb⟩ := Option.isSome_iff_exists.mp ha
    simp only [List.filterMap_cons, hb, List.length_cons]
    rw [ih fun x hx => h x (List.mem_cons_of_mem a hx)]

/-! ### Concrete fixtures used by witnesses and counterexamples -/

/-- A freshly selected frame of video `vid`. -/
def mkSelectedFrame (vid i : Nat) : Frame :=
  { id := i, videoId := vid, frameNumber := i,
    status := FrameStatus.selected, qdrantPointId := none,
    trainingJobId := none, trainingAttempts := 0, lastError := none,
    deletedAt := none }

/-- A freshly created pending job, as `execute_training` inserts it
(counters zero, `total_frames` the number of frames matched at creation). -/
def mkPendingJob (jid vid tot : Nat) : Job :=
  { id := jid, videoId := vid, status := JobStatus.pending,
    totalFrames := tot, processedFrames := 0, failedFrames := 0,
    errorMessage := none, startedAt := none, completedAt := none,
    rolledBackAt := none }

/-! ### Claim theorems -/

theorem rollback_preserves_counters (t : Nat) (st : RollbackState) :
    (rollbackTrainingTask t st).state.job.processedFrames
        = st.job.processedFrames ∧
    (rollbackTrainingTask t st).state.job.failedFrames
        = st.job.failedFrames ∧
    (rollbackTrainingTask t st).state.job.totalFrames
        = st.job.totalFrames := by
  unfold rollbackTrainingTask
  dsimp only
  split_ifs <;> exact ⟨rfl, rfl, rfl⟩

/-- C3: when a training job finishes all batches without the circuit
breaker tripping (formally: the run's resulting status is not `paused`, and
the entry query found at least one frame so the loop actually ran), the
final status follows the terminal-resolution rule of `train_frames_task`:
`processed = 0 ∧ failed > 0` gives `failed`; `processed > 0 ∧ failed > 0`
gives `completed` with the warning `"<failed> out of <total> frames
failed"`; `failed = 0` gives `completed` with no error message; and
`completed_at` is always stamped.  The last conjunct fixes the message
format of Scenario C (total 35, failed 5). -/
theorem training_terminal_resolution (oracle : Nat → Nat → Bool)
    (pid : Nat → Nat) (pause : Nat → Bool) (otherProcessing : Bool) (t : Nat)
    (job : Job) (db : List Frame)
    (hsel : selectedFramesFor job.videoId db ≠ [])
    (hnp : (runTrainTask oracle pid pause otherProcessing t job db).job.status
      ≠ JobStatus.paused) :
    (runTrainTask oracle pid pause otherProcessing t job db).job.completedAt
        = some t ∧
    ((runTrainTask oracle pid pause otherProcessing t job db).job.processedFrames = 0 ∧
      0 < (runTrainTask oracle pid pause otherProcessing t job db).job.failedFrames →
      (runTrainTask oracle pid pause otherProcessing t job db).job.status
        = JobStatus.failed) ∧
    (0 < (runTrainTask oracle pid pause otherProcessing t job db).job.processedFrames ∧
      0 < (runTrainTask oracle pid pause otherProcessing t job db).job.failedFrames →
      (runTrainTask oracle pid pause otherProcessing t job db).job.status
        = JobStatus.completed ∧
      (runTrainTask oracle pid pause otherProcessing t job db).job.errorMessage
        = some (failedOutOfMsg
            (runTrainTask oracle pid pause otherProcessing t job db).job.failedFrames
            (runTrainTask oracle pid pause otherProcessing t job db).job.totalFrames)) ∧
    ((runTrainTask oracle pid pause otherProcessing t job db).job.failedFrames = 0 →
      (runTrainTask oracle pid pause otherProcessing t job db).job.status
        = JobStatus.completed ∧
      (runTrainTask oracle pid pause otherProcessing t job db).job.errorMessage
        = none) ∧
    failedOutOfMsg 5 35 = "5 out of 35 frames failed" := by
  simp only [runTrainTask] at hnp ⊢
  rw [if_neg hsel] at hnp ⊢
  by_cases ho : otherProcessing = true
  · rw [if_pos ho] at hnp
    exact absurd rfl hnp
  · rw [if_neg ho] at hnp ⊢
    rcases runBatches_final oracle pid pause t
        (chunkList TRAINING_BATCH_SIZE (selectedFramesFor job.videoId db)) 0
        { job with
          totalFrames := (selectedFramesFor job.videoId db).length
          status := JobStatus.processing
          startedAt := some t }
        db 0 [] with hpz | hjf
    · exact absurd hpz hnp
    · obtain ⟨j, hj⟩ := hjf
      rw [hj]
      have hc := finalizeJob_cases t j
      have hpp := finalizeJob_processedFrames t j
      have hff := finalizeJob_failedFrames t j
      have htt := finalizeJob_totalFrames t j
      refine ⟨finalizeJob_completedAt t j, ?_, ?_, ?_, by decide⟩
      · intro hcond
        rw [hpp, hff] at hcond
        exact (hc.1 hcond).1
      · intro hcond
        rw [hpp, hff] at hcond
        have hres := hc.2.1 hcond
        rw [hff, htt]
        exact hres
      · intro hcond
        rw [hff] at hcond
        exact hc.2.2 hcond

/-- Selected frames for Scenario C: 35 frames of video 1. -/
def c3Frames : List Frame := (List.range 35).map fun i => mkSelectedFrame 1 (i + 1)

/-- Oracle for Scenario C: frames 1..5 fail every attempt, the rest succeed. -/
def c3Oracle : Nat → Nat → Bool := fun fid _ => 5 < fid

theorem training_terminal_resolution_witness :
    (runTrainTask c3Oracle (fun i => i) (fun _ => false) false 9
        (mkPendingJob 7 1 35) c3Frames).job.status = JobStatus.completed ∧
    (runTrainTask c3Oracle (fun i => i) (fun _ => false) false 9
        (mkPendingJob 7 1 35) c3Frames).job.errorMessage
      = some "5 out of 35 frames failed" := by
  have h := training_terminal_resolution c3Oracle (fun i => i) (fun _ => false)
    false 9 (mkPendingJob 7 1 35) c3Frames (by decide) (by decide)
  have h2 := h.2.2.1 ⟨by decide, by decide⟩
  exact ⟨h2.1, h2.2.trans (by decide)⟩

/-- C2 (amended): the counter invariant holds for every run that starts
from fresh counters: `processed + failed ≤ total` holds for the resulting
job whatever happens (each committed intermediate state is the result of a
run whose pause oracle stops it there, so this covers "at all times"), and
`processed + failed = total` whenever the entry query found at least one
selected frame and such a run ends `completed` or `failed`; rollback
preserves all three counters, so the equality persists to `rolled_back`.
The terminal equality fails in the two remaining reachable cases: a run
whose entry query finds no selected frames completes with counters 0 while
`total_frames` keeps its stale value (the behaviour recorded at C4), and a
paused job that is resumed carries its counters over while `total_frames`
is recomputed from the still-selected frames (see the counterexample). -/
theorem job_counter_invariant (oracle : Nat → Nat → Bool) (pid : Nat → Nat)
    (pause : Nat → Bool) (otherProcessing : Bool) (t : Nat)
    (job : Job) (db : List Frame)
    (hp0 : job.processedFrames = 0) (hf0 : job.failedFrames = 0) :
    (runTrainTask oracle pid pause otherProcessing t job db).job.processedFrames
        + (runTrainTask oracle pid pause otherProcessing t job db).job.failedFrames
        ≤ (runTrainTask oracle pid pause otherProcessing t job db).job.totalFrames ∧
    (selectedFramesFor job.videoId db ≠ [] →
      ((runTrainTask oracle pid pause otherProcessing t job db).job.status
          = JobStatus.completed ∨
        (runTrainTask oracle pid pause otherProcessing t job db).job.status
          = JobStatus.failed) →
      (runTrainTask oracle pid pause otherProcessing t job db).job.processedFrames
        + (runTrainTask oracle pid pause otherProcessing t job db).job.failedFrames
        = (runTrainTask oracle pid pause otherProcessing t job db).job.totalFrames) ∧
    (∀ st : RollbackState,
      (rollbackTrainingTask t st).state.job.processedFrames
          = st.job.processedFrames ∧
      (rollbackTrainingTask t st).state.job.failedFrames
          = st.job.failedFrames ∧
      (rollbackTrainingTask t st).state.job.totalFrames
          = st.job.totalFrames) := by
  refine ⟨?_, ?_, fun st => rollback_preserves_counters t st⟩
  · simp only [runTrainTask]
    by_cases hs : selectedFramesFor job.videoId db = []
    · rw [if_pos hs]
      dsimp only
      omega
    · rw [if_neg hs]
      by_cases ho : otherProcessing = true
      · rw [if_pos ho]
        dsimp only
        omega
      · rw [if_neg ho]
        have hle := runBatches_counters_le oracle pid pause t
          (chunkList TRAINING_BATCH_SIZE (selectedFramesFor job.videoId db)) 0
          { job with
            totalFrames := (selectedFramesFor job.videoId db).length
            status := JobStatus.processing
            startedAt := some t }
          db 0 []
        have htot := runBatches_totalFrames oracle pid pause t
          (chunkList TRAINING_BATCH_SIZE (selectedFramesFor job.videoId db)) 0
          { job with
            totalFrames := (selectedFramesFor job.videoId db).length
            status := JobStatus.processing
            startedAt := some t }
          db 0 []
        rw [chunkList_flatten TRAINING_BATCH_SIZE (by decide)] at hle
        dsimp only at hle htot
        omega
  · intro hsel hterm
    simp only [runTrainTask] at hterm ⊢
    rw [if_neg hsel] at hterm ⊢
    by_cases ho : otherProcessing = true
    · rw [if_pos ho] at hterm
      rcases hterm with h | h <;> simp at h
    · rw [if_neg ho] at hterm ⊢
      have hne : (runBatches oracle pid pause t
          (chunkList TRAINING_BATCH_SIZE (selectedFramesFor job.videoId db)) 0
          { job with
            totalFrames := (selectedFramesFor job.videoId db).length
            status := JobStatus.processing
            startedAt := some t }
          db 0 []).job.status ≠ JobStatus.paused := by
        intro hpz
        rcases hterm with h | h <;> rw [hpz] at h <;> exact JobStatus.noConfusion h
      have heq := runBatches_counters_eq oracle pid pause t
        (chunkList TRAINING_BATCH_SIZE (selectedFramesFor job.videoId db)) 0
        { job with
          totalFrames := (selectedFramesFor job.videoId db).length
          status := JobStatus.processing
          startedAt := some t }
        db 0 [] hne
      have htot := runBatches_totalFrames oracle pid pause t
        (chunkList TRAINING_BATCH_SIZE (selectedFramesFor job.videoId db)) 0
        { job with
          totalFrames := (selectedFramesFor job.videoId db).length
          status := JobStatus.processing
          startedAt := some t }
        db 0 []
      rw [chunkList_flatten TRAINING_BATCH_SIZE (by decide)] at heq
      dsimp only at heq htot
      omega

theorem job_counter_invariant_witness :
    (runTrainTask c3Oracle (fun i => i) (fun _ => false) false 9
        (mkPendingJob 7 1 35) c3Frames).job.processedFrames
      + (runTrainTask c3Oracle (fun i => i) (fun _ => false) false 9
          (mkPendingJob 7 1 35) c3Frames).job.failedFrames
      = (runTrainTask c3Oracle (fun i => i) (fun _ => false) false 9
          (mkPendingJob 7 1 35) c3Frames).job.totalFrames := by
  have h := job_counter_invariant c3Oracle (fun i => i) (fun _ => false) false 9
    (mkPendingJob 7 1 35) c3Frames (by decide) (by decide)
  exact h.2.1 (by decide) (Or.inl (by decide))

/-- Selected frames for the C2 counterexample: 20 frames of video 1. -/
def c2Frames : List Frame := (List.range 20).map fun i => mkSelectedFrame 1 (i + 1)

/-- First run for the C2 counterexample: frames 1..10 succeed, 11..20 fail,
so the single batch adds 10 failures and the circuit breaker pauses the job
with `processed = 10`, `failed = 10`, `total = 20`. -/
def c2Run1 : RunResult :=
  runTrainTask (fun fid _ => fid ≤ 10) (fun i => i) (fun _ => false) false 100
    (mkPendingJob 7 1 20) c2Frames

/-- The job as `resume_training` rewrites it (status `pending`, error
cleared, counters kept). -/
def c2ResumedJob : Job :=
  { c2Run1.job with status := JobStatus.pending, errorMessage := none }

/-- Second run after resume: every remaining frame succeeds. -/
def c2Run2 : RunResult :=
  runTrainTask (fun _ _ => true) (fun i => i) (fun _ => false) false 200
    c2ResumedJob c2Run1.frames

theorem job_counter_invariant_counterexample :
    resumeJob c2Run1.job = some c2ResumedJob ∧
    c2ResumedJob.processedFrames + c2ResumedJob.failedFrames = 20 ∧
    (runTrainTask (fun _ _ => true) (fun i => i) (fun _ => false) false 200
        c2ResumedJob c2Run1.frames).job.totalFrames = 10 ∧
    c2Run2.job.status = JobStatus.completed ∧
    c2Run2.job.processedFrames + c2Run2.job.failedFrames = 30 ∧
    c2Run2.job.totalFrames = 10 := by
  refine ⟨by decide, by decide, by decide, by decide, by decide, by decide⟩

/-- Scenario B fixture: 50 selected frames of video 1, where the embedding
step fails on frames 1..10 on every attempt and succeeds on frames
11..50. -/
def c1Frames50 : List Frame := (List.range 50).map fun i => mkSelectedFrame 1 (i + 1)

def c1Oracle : Nat → Nat → Bool := fun fid _ => 10 < fid

def c1Run50 : RunResult :=
  runTrainTask c1Oracle (fun i => i) (fun _ => false) false 11
    (mkPendingJob 5 1 50) c1Frames50

theorem circuit_breaker_counterexample :
    c1Run50.job.status = JobStatus.paused ∧
    c1Run50.job.errorMessage = some (circuitBreakerMsg 10) ∧
    c1Run50.attempted.length = 50 ∧
    c1Run50.job.processedFrames = 40 ∧
    (c1Run50.frames.filter fun f => f.status == FrameStatus.trained).length
      = 40 := by
  refine ⟨by decide, by decide, by decide, by decide, by decide⟩

/-- The same failing frames inside a 100-frame job: the breaker fires after
the first batch of 50, so the second batch is never dispatched. -/
def c1Frames100 : List Frame := (List.range 100).map fun i => mkSelectedFrame 1 (i + 1)

def c1Run100 : RunResult :=
  runTrainTask c1Oracle (fun i => i) (fun _ => false) false 11
    (mkPendingJob 5 1 100) c1Frames100

/-- C1 (amended): with 10 failing frames in a batch (threshold 10), the job
is paused by the circuit breaker only after the whole batch has been
processed: every frame of that batch is dispatched to the worker pool (all
50 appear in `attempted`; the other 40 frames succeed and end `trained`),
and it is the frames of the *subsequent* batches — not of the tripping
batch — that are never attempted and stay `selected` untouched, as shown by
the 100-frame variant. -/
theorem circuit_breaker_batch_granularity :
    c1Run50.job.status = JobStatus.paused ∧
    c1Run50.attempted = (List.range 50).map (fun i => i + 1) ∧
    c1Run50.job.processedFrames = 40 ∧
    c1Run50.job.failedFrames = 10 ∧
    c1Run100.job.status = JobStatus.paused ∧
    c1Run100.attempted = (List.range 50).map (fun i => i + 1) ∧
    (c1Run100.frames.filter fun f => 50 < f.id)
      = (c1Frames100.filter fun f => 50 < f.id) := by
  refine ⟨by decide, by decide, by decide, by decide, by decide, by decide,
    by decide⟩

/-- C4 (amended): whenever the entry query finds no selected,
non-soft-deleted frame for the job's video, `train_frames_task` completes
the job immediately — but it only writes `status` and `completed_at`:
`total_frames` keeps whatever value the job row already had (it is 0 only
if it was already 0), and no frame row is touched. -/
theorem empty_selection_completes (oracle : Nat → Nat → Bool)
    (pid : Nat → Nat) (pause : Nat → Bool) (otherProcessing : Bool) (t : Nat)
    (job : Job) (db : List Frame)
    (h : selectedFramesFor job.videoId db = []) :
    runTrainTask oracle pid pause otherProcessing t job db
      = ⟨{ job with status := JobStatus.completed, completedAt := some t },
          db, []⟩ := by
  simp only [runTrainTask]
  rw [if_pos h]

/-- A job created by `execute_training` with 5 matched frames, run after
the user deselected all of them. -/
def c4Job : Job := mkPendingJob 3 1 5

def c4Frames : List Frame :=
  [{ mkSelectedFrame 1 1 with status := FrameStatus.extracted },
   { mkSelectedFrame 1 2 with status := FrameStatus.extracted }]

theorem empty_selection_counterexample :
    (runTrainTask (fun _ _ => true) (fun i => i) (fun _ => false) false 4
        c4Job c4Frames).job.status = JobStatus.completed ∧
    (runTrainTask (fun _ _ => true) (fun i => i) (fun _ => false) false 4
        c4Job c4Frames).job.totalFrames = 5 ∧
    ¬ (runTrainTask (fun _ _ => true) (fun i => i) (fun _ => false) false 4
        c4Job c4Frames).job.totalFrames = 0 := by
  refine ⟨by decide, by decide, by decide⟩

theorem empty_selection_completes_witness :
    runTrainTask (fun _ _ => true) (fun i => i) (fun _ => false) false 4
        c4Job c4Frames
      = ⟨{ c4Job with status := JobStatus.completed, completedAt := some 4 },
          c4Frames, []⟩ := by
  exact empty_selection_completes (fun _ _ => true) (fun i => i)
    (fun _ => false) false 4 c4Job c4Frames (by decide)

/-- C5: a frame whose per-frame sequence fails on every attempt runs the
sequence exactly `TRAINING_RETRY_ATTEMPTS = 3` times, sleeping the
configured backoff entries between attempts (with three attempts there are
two gaps, so the sleeps are `TRAINING_RETRY_BACKOFF.take 2 = [1, 5]`,
drawn from the schedule `[1, 5, 15]`); on exhaustion the frame is reverted
to `selected` (not `extracted`), its `last_error` records the failure, and
its attempt counter is incremented by the attempt count. -/
theorem frame_retry_exhaustion (oracle : Nat → Bool) (pid jobId : Nat)
    (f : Frame)
    (h : ∀ k, k < TRAINING_RETRY_ATTEMPTS → oracle k = false) :
    (processSingleFrame oracle pid jobId f).attemptsMade
        = TRAINING_RETRY_ATTEMPTS ∧
    (processSingleFrame oracle pid jobId f).sleeps
        = TRAINING_RETRY_BACKOFF.take (TRAINING_RETRY_ATTEMPTS - 1) ∧
    (processSingleFrame oracle pid jobId f).pointId = none ∧
    (processSingleFrame oracle pid jobId f).frame.status
        = FrameStatus.selected ∧
    (processSingleFrame oracle pid jobId f).frame.lastError
        = some exhaustionMsg ∧
    (processSingleFrame oracle pid jobId f).frame.trainingAttempts
        = f.trainingAttempts + TRAINING_RETRY_ATTEMPTS := by
  have h0 := h 0 (by decide)
  have h1 := h 1 (by decide)
  have h2 := h 2 (by decide)
  simp [processSingleFrame, TRAINING_RETRY_ATTEMPTS, attemptLoop, h0, h1, h2,
    TRAINING_RETRY_BACKOFF, exhaustionMsg]

theorem frame_retry_exhaustion_witness :
    (processSingleFrame (fun _ => false) 99 42 (mkSelectedFrame 1 1)).sleeps
        = [1, 5] ∧
    (processSingleFrame (fun _ => false) 99 42 (mkSelectedFrame 1 1)).frame.status
        = FrameStatus.selected ∧
    (processSingleFrame (fun _ => false) 99 42
        (mkSelectedFrame 1 1)).frame.lastError
        = some "Failed after 3 attempts" ∧
    (processSingleFrame (fun _ => false) 99 42
        (mkSelectedFrame 1 1)).frame.trainingAttempts = 3 := by
  have h := frame_retry_exhaustion (fun _ => false) 99 42 (mkSelectedFrame 1 1)
    (fun k _ => rfl)
  exact ⟨h.2.1.trans (by decide), h.2.2.2.1,
    h.2.2.2.2.1.trans (by decide), h.2.2.2.2.2.trans (by decide)⟩

theorem rollbackPrimaryFrames_isSome (jobId : Nat) (db : List Frame) :
    ∀ f ∈ rollbackPrimaryFrames jobId db, f.qdrantPointId.isSome := by
  intro f hf
  have hm := List.mem_filter.mp hf
  simp only [Bool.and_eq_true] at hm
  exact hm.2.2

/-- C6: rolling back a `completed` job whose linked frames (status
`trained`/`training`, holding point ids) are non-empty hands every one of
their point ids to the Qdrant batch delete (`deletionsAttempted` equals the
number of matched frames), deletes their embedding replicas, reverts each
matched frame to `selected` with point id and job link cleared, and marks
the job `rolled_back` with a non-null timestamp; with zero matching frames
the job is still marked `rolled_back` with the timestamp. -/
theorem rollback_completed_job (t : Nat) (st : RollbackState)
    (h : st.job.status = JobStatus.completed) :
    (rollbackTrainingTask t st).state.job.status = JobStatus.rolled_back ∧
    (rollbackTrainingTask t st).state.job.rolledBackAt = some t ∧
    (rollbackPrimaryFrames st.job.id st.frames ≠ [] →
      (rollbackTrainingTask t st).deletionsAttempted
          = (rollbackPrimaryFrames st.job.id st.frames).length ∧
      (∀ f ∈ (rollbackTrainingTask t st).state.frames,
        f.id ∈ (rollbackPrimaryFrames st.job.id st.frames).map Frame.id →
        f.status = FrameStatus.selected ∧ f.qdrantPointId = none ∧
        f.trainingJobId = none) ∧
      (∀ fid ∈ (rollbackPrimaryFrames st.job.id st.frames).map Frame.id,
        fid ∉ (rollbackTrainingTask t st).state.embeddings)) := by
  unfold rollbackTrainingTask
  rw [if_neg (by intro hc; exact hc.1 h)]
  dsimp only
  by_cases hP : rollbackPrimaryFrames st.job.id st.frames = []
  · rw [if_pos hP]
    by_cases hF : rollbackFallbackFrames st.job.videoId st.frames = []
    · rw [if_pos hF]
      exact ⟨rfl, rfl, fun hne => absurd hP hne⟩
    · rw [if_neg hF]
      exact ⟨rfl, rfl, fun hne => absurd hP hne⟩
  · rw [if_neg hP, if_neg hP]
    refine ⟨rfl, rfl, fun _ => ⟨?_, ?_, ?_⟩⟩
    · exact filterMap_length_of_isSome Frame.qdrantPointId _
        (rollbackPrimaryFrames_isSome st.job.id st.frames)
    · intro f hf hid
      obtain ⟨a, ha, rfl⟩ := List.mem_map.mp hf
      by_cases hc :
          ((rollbackPrimaryFrames st.job.id st.frames).map Frame.id).contains a.id
      · rw [if_pos hc]
        exact ⟨rfl, rfl, rfl⟩
      · rw [if_neg hc] at hid ⊢
        exact absurd (contains_iff_mem.mpr hid) hc
    · intro fid hfid hmem
      have hm := List.mem_filter.mp hmem
      have hct := contains_iff_mem.mpr hfid
      simp [hct] at hm
      obtain ⟨x, hx, hxid⟩ := List.mem_map.mp hfid
      exact hm.2 x hx hxid

/-- Scenario D fixture: a completed job with 10 linked trained frames
holding point ids, each owning an embedding replica. -/
def c6Frames : List Frame := (List.range 10).map fun i =>
  { id := i + 1, videoId := 3, frameNumber := i + 1,
    status := FrameStatus.trained, qdrantPointId := some (100 + i),
    trainingJobId := some 42, trainingAttempts := 1, lastError := none,
    deletedAt := none }

def c6State : RollbackState :=
  { job := { id := 42, videoId := 3, status := JobStatus.completed,
             totalFrames := 10, processedFrames := 10, failedFrames := 0,
             errorMessage := none, startedAt := some 1, completedAt := some 2,
             rolledBackAt := none },
    frames := c6Frames,
    embeddings := (List.range 10).map (· + 1) }

theorem rollback_completed_job_witness :
    (rollbackTrainingTask 7 c6State).deletionsAttempted = 10 ∧
    (rollbackTrainingTask 7 c6State).state.job.status = JobStatus.rolled_back ∧
    (rollbackTrainingTask 7 c6State).state.job.rolledBackAt = some 7 ∧
    (rollbackTrainingTask 7 c6State).state.embeddings = [] := by
  have h := rollback_completed_job 7 c6State (by decide)
  exact ⟨((h.2.2 (by decide)).1).trans (by decide), h.1, h.2.1, by decide⟩

/-- C8: invoking rollback on a job already in `rolled_back` is a no-op: the
API rejects it up front, and the task itself returns before touching the
job, its frames, or the embedding replicas. -/
theorem rollback_idempotent_on_rolled_back (t : Nat) (st : RollbackState)
    (h : st.job.status = JobStatus.rolled_back) :
    rollbackTrainingTask t st = ⟨st, 0⟩ ∧
    rollbackApiCheck st.job = RollbackApiDecision.alreadyRolledBack := by
  constructor
  · unfold rollbackTrainingTask
    rw [if_pos ⟨by simp [h], by simp [h]⟩]
  · unfold rollbackApiCheck
    rw [if_pos h]

/-- A rolled-back job with one already-reverted frame. -/
def c8State : RollbackState :=
  { job := { id := 6, videoId := 2, status := JobStatus.rolled_back,
             totalFrames := 1, processedFrames := 1, failedFrames := 0,
             errorMessage := none, startedAt := some 1, completedAt := some 2,
             rolledBackAt := some 5 },
    frames := [mkSelectedFrame 2 1],
    embeddings := [] }

theorem rollback_idempotent_witness :
    rollbackTrainingTask 9 c8State = ⟨c8State, 0⟩ ∧
    rollbackApiCheck c8State.job = RollbackApiDecision.alreadyRolledBack :=
  rollback_idempotent_on_rolled_back 9 c8State (by decide)

/-- C7 (amended): every `select` request whose (fully found, same-video)
frame set contains at least one `trained`, `deleted`, or `training` frame
is rejected with an error listing exactly the offending ids, and the frame
table is left unchanged.  The guard runs only for the `select` action: a
`deselect` request containing such a frame is accepted (see the
counterexample), so the claim's "every request" must be read as "every
select request". -/
theorem selection_select_rejects_blocked (frameIds : List Nat) (db : List Frame)
    (hfound : (db.filter fun f => frameIds.contains f.id).length
      = frameIds.length)
    (hvid : ((db.filter fun f => frameIds.contains f.id).map
      Frame.videoId).dedup.length ≤ 1)
    (hbad : (db.filter fun f => frameIds.contains f.id).filter blockedStatus
      ≠ []) :
    updateFrameSelection SelAction.select frameIds db
      = ⟨db, SelectionResponse.rejected (SelectionError.invalidStatus
          (((db.filter fun f => frameIds.contains f.id).filter
            blockedStatus).map Frame.id))⟩ := by
  unfold updateFrameSelection
  dsimp only
  rw [if_neg (fun hne => hne hfound), if_neg (by omega), if_pos ⟨rfl, hbad⟩]

/-- A trained frame holding a point id, owned by job 4. -/
def c7TrainedFrame : Frame :=
  { id := 1, videoId := 1, frameNumber := 1, status := FrameStatus.trained,
    qdrantPointId := some 9, trainingJobId := some 4, trainingAttempts := 1,
    lastError := none, deletedAt := none }

theorem selection_guard_counterexample :
    (updateFrameSelection SelAction.deselect [1] [c7TrainedFrame]).response
        = SelectionResponse.ok 1 ∧
    (updateFrameSelection SelAction.deselect [1] [c7TrainedFrame]).db
        = [{ c7TrainedFrame with status := FrameStatus.extracted }] ∧
    c7TrainedFrame.status = FrameStatus.trained := by
  refine ⟨by decide, by decide, by decide⟩

theorem selection_select_rejects_blocked_witness :
    updateFrameSelection SelAction.select [1, 2]
        [{ mkSelectedFrame 1 1 with status := FrameStatus.extracted },
          { c7TrainedFrame with id := 2, frameNumber := 2 }]
      = ⟨[{ mkSelectedFrame 1 1 with status := FrameStatus.extracted },
          { c7TrainedFrame with id := 2, frameNumber := 2 }],
          SelectionResponse.rejected (SelectionError.invalidStatus [2])⟩ := by
  have h := selection_select_rejects_blocked [1, 2]
    [{ mkSelectedFrame 1 1 with status := FrameStatus.extracted },
      { c7TrainedFrame with id := 2, frameNumber := 2 }]
    (by decide) (by decide) (by decide)
  exact h.trans (by decide)

/-- C10: for the `deselect` action the status guard never runs: every
referenced frame (all found, single video) ends with status `extracted`
regardless of its previous status, so `trained`, `training`, and
soft-deleted frames can all be moved to `extracted` through deselection. -/
theorem deselect_bypasses_status_guard (frameIds : List Nat) (db : List Frame)
    (hfound : (db.filter fun f => frameIds.contains f.id).length
      = frameIds.length)
    (hvid : ((db.filter fun f => frameIds.contains f.id).map
      Frame.videoId).dedup.length ≤ 1) :
    (∀ f ∈ (updateFrameSelection SelAction.deselect frameIds db).db,
      f.id ∈ frameIds → f.status = FrameStatus.extracted) ∧
    (updateFrameSelection SelAction.deselect frameIds db).response
      = SelectionResponse.ok
          ((db.filter fun f => frameIds.contains f.id).filter
            (fun f => f.status ≠ FrameStatus.extracted)).length := by
  unfold updateFrameSelection
  dsimp only
  rw [if_neg (fun hne => hne hfound), if_neg (by omega),
    if_neg (fun hc => SelAction.noConfusion hc.1),
    if_neg (show ¬(SelAction.deselect = SelAction.select) from
      fun hc => SelAction.noConfusion hc)]
  refine ⟨?_, rfl⟩
  intro f hf hid
  obtain ⟨a, ha, rfl⟩ := List.mem_map.mp hf
  by_cases hc : frameIds.contains a.id
  · rw [if_pos hc] at hid ⊢
    split
    · rfl
    · next hs => exact not_not.mp hs
  · rw [if_neg hc] at hid ⊢
    exact absurd (contains_iff_mem.mpr hid) hc

/-- A trained frame, a mid-training frame and a soft-deleted frame of the
same video, all addressed by one deselect request. -/
def c10Db : List Frame :=
  [{ mkSelectedFrame 1 1 with status := FrameStatus.trained, qdrantPointId := some 11 },
   { mkSelectedFrame 1 2 with status := FrameStatus.training, trainingJobId := some 4 },
   { mkSelectedFrame 1 3 with status := FrameStatus.deleted, deletedAt := some 99 }]

theorem deselect_bypasses_status_guard_witness :
    ((updateFrameSelection SelAction.deselect [1, 2, 3] c10Db).db.map
        Frame.status)
      = [FrameStatus.extracted, FrameStatus.extracted,
          FrameStatus.extracted] ∧
    (updateFrameSelection SelAction.deselect [1, 2, 3] c10Db).response
      = SelectionResponse.ok 3 := by
  have h := deselect_bypasses_status_guard [1, 2, 3] c10Db (by decide)
    (by decide)
  exact ⟨by decide, h.2.trans (by decide)⟩

theorem runExtractionBatches_abort (k : Nat) (msg : String) :
    ∀ (batches : List (List Nat)) (v : Video) (committed : List Nat),
      batches.any (fun b => b.contains k) = true →
      (runExtractionBatches (some (k, msg)) batches v committed).video.status
          = VideoStatus.failed ∧
      (runExtractionBatches (some (k, msg)) batches v committed).video.errorMessage
          = some msg ∧
      (runExtractionBatches (some (k, msg)) batches v committed).committedFrames
          = committed ++ (batches.takeWhile fun b => !b.contains k).flatten
  | [], v, committed, h => by simp at h
  | b :: rest, v, committed, h => by
    rw [runExtractionBatches]
    by_cases hb : b.contains k = true
    · rw [if_pos hb]
      refine ⟨rfl, rfl, ?_⟩
      simp only [List.takeWhile_cons, hb, Bool.not_true, Bool.false_eq_true,
        if_false, List.flatten_nil, List.append_nil]
    · rw [if_neg hb]
      have hrest : rest.any (fun b => b.contains k) = true := by
        simp only [List.any_cons, Bool.or_eq_true] at h
        rcases h with h | h
        · exact absurd h hb
        · exact h
      have ih := runExtractionBatches_abort k msg rest
        { v with totalFrames := (committed ++ b).length } (committed ++ b) hrest
      refine ⟨ih.1, ih.2.1, ?_⟩
      rw [ih.2.2, List.takeWhile_cons]
      have hbf : b.contains k = false := by
        cases hcb : b.contains k
        · rfl
        · exact absurd hcb hb
      rw [hbf]
      simp only [Bool.not_false, eq_self_iff_true, if_true, List.flatten_cons,
        List.append_assoc]

/-- C9: if an exception (text `msg`) escapes while frame `k` of `n` is
being handled, the whole extraction run aborts: the video ends `failed`
with the exception text as its error message, and exactly the frames of the
batches committed before the failing batch remain in place (no compensating
rollback of earlier batches, nothing from the failing batch onward). -/
theorem extraction_failure_policy (v : Video) (n k : Nat) (msg : String)
    (h : k < n) :
    (runExtraction v n (some (k, msg))).video.status = VideoStatus.failed ∧
    (runExtraction v n (some (k, msg))).video.errorMessage = some msg ∧
    (runExtraction v n (some (k, msg))).committedFrames
      = ((chunkList FRAME_EXTRACTION_BATCH_SIZE (List.range n)).takeWhile
          fun b => !b.contains k).flatten := by
  have hmem : k ∈ (chunkList FRAME_EXTRACTION_BATCH_SIZE (List.range n)).flatten := by
    rw [chunkList_flatten _ (by decide)]
    exact List.mem_range.mpr h
  obtain ⟨b, hb, hkb⟩ := List.mem_flatten.mp hmem
  have hany : (chunkList FRAME_EXTRACTION_BATCH_SIZE (List.range n)).any
      (fun b => b.contains k) = true := by
    rw [List.any_eq_true]
    exact ⟨b, hb, contains_iff_mem.mpr hkb⟩
  have hres := runExtractionBatches_abort k msg
    (chunkList FRAME_EXTRACTION_BATCH_SIZE (List.range n)) v [] hany
  exact ⟨hres.1, hres.2.1, hres.2.2.trans (by simp)⟩

/-- A video mid-extraction, used to instantiate the failure policy. -/
def c9Video : Video :=
  { id := 8, status := VideoStatus.extracting, totalFrames := 0,
    errorMessage := none }

set_option maxRecDepth 16384 in
theorem extraction_failure_policy_witness :
    (runExtraction c9Video 250 (some (130, "boom"))).video.status
        = VideoStatus.failed ∧
    (runExtraction c9Video 250 (some (130, "boom"))).video.errorMessage
        = some "boom" ∧
    (runExtraction c9Video 250 (some (130, "boom"))).committedFrames
        = List.range 100 := by
  have h := extraction_failure_policy c9Video 250 130 "boom" (by decide)
  exact ⟨h.1, h.2.1, h.2.2.trans (by decide)⟩
